import Mathlib

/-
Verification of the streaming core of hicstuff's pipeline module
(`hicstuff/pipeline.py`): the PCR-duplicate collapse stage
(`filter_pcr_dup`), the run-length matrix aggregator (`pairs2matrix`)
and the mate-synchronization merge (`bam2pairs`).

The embedding is shallow: files are modelled as a list of header lines
plus a list of parsed data rows (the csv readers hand every field to the
Python code as a string, so all row fields are `String`); the streaming
loops become structurally or well-founded recursive functions over those
lists, threading the same counters the source mutates in place.
-/

/-- One data row of an indexed .pairs file, as `csv.DictReader` /
`csv.reader` hand it to the Python code: nine string fields in the
declared column order readID, chr1, pos1, chr2, pos2, strand1, strand2,
frag1, frag2. -/
structure PairRow where
  readID : String
  chr1 : String
  pos1 : String
  chr2 : String
  pos2 : String
  strand1 : String
  strand2 : String
  frag1 : String
  frag2 : String
deriving DecidableEq, Repr

/-- A pairs file: the `#`-prefixed header lines (returned by
`hio.get_pairs_header`) followed by the parsed data rows. -/
structure PairsFile where
  header : List String
  rows : List PairRow
deriving DecidableEq, Repr

/-- The coordinate tuple `filter_pcr_dup` compares: every column except
`readID` (`coord_cols = [col for col in paircols if col != "readID"]`). -/
def coords (r : PairRow) : List String :=
  [r.chr1, r.pos1, r.chr2, r.pos2, r.strand1, r.strand2, r.frag1, r.frag2]

/-- The duplicate test of `filter_pcr_dup`'s loop:
`all(pair[c] == prev[c] for c in coord_cols)`.  The initial `prev` is a
dict whose values are the integer 0, and in Python an `int` is never
`==` to a `str`, so before any row has been kept the test is `false`;
we model that initial sentinel as `none`. -/
def coordsMatch (prev : Option PairRow) (r : PairRow) : Bool :=
  match prev with
  | some p => coords r == coords p
  | none => false

/-- The row loop of `filter_pcr_dup` (pipeline.py lines 293-306): a row
whose coordinates equal those of the previously kept row is dropped and
counted in `filter_count`, otherwise it is written and becomes `prev`.
Returns (rows written, filter_count, reads_count). -/
def filterLoop (prev : Option PairRow) : List PairRow → List PairRow × Nat × Nat
  | [] => ([], 0, 0)
  | r :: rs =>
    if coordsMatch prev r then
      ((filterLoop prev rs).1, (filterLoop prev rs).2.1 + 1, (filterLoop prev rs).2.2 + 1)
    else
      (r :: (filterLoop (some r) rs).1, (filterLoop (some r) rs).2.1, (filterLoop (some r) rs).2.2 + 1)

/-- `filter_pcr_dup` (pipeline.py lines 247-314): copies the header lines
verbatim, then streams the rows through `filterLoop` starting from the
never-matching initial `prev`.  Returns the output file together with the
reported `filter_count` and `reads_count`. -/
def filter_pcr_dup (f : PairsFile) : PairsFile × Nat × Nat :=
  (⟨f.header, (filterLoop none f.rows).1⟩,
    (filterLoop none f.rows).2.1, (filterLoop none f.rows).2.2)

/-- Specification-side description of duplicate collapsing (§4.3 of the
design): keep a row exactly when its coordinate tuple differs from the
one of the immediately preceding input row, i.e. keep the first row of
every maximal run of coordinate-equal consecutive rows.  `c` is the
coordinate tuple of the previous row. -/
def keepFirstsGo (c : List String) : List PairRow → List PairRow
  | [] => []
  | r :: rs =>
    if coords r = c then keepFirstsGo (coords r) rs
    else r :: keepFirstsGo (coords r) rs

/-- Specification-side duplicate collapsing: the first row is always
kept, later rows are kept when they differ from their predecessor. -/
def keepFirsts : List PairRow → List PairRow
  | [] => []
  | r :: rs => r :: keepFirstsGo (coords r) rs

/-- Input rows are "already collapsed": no two consecutive rows share
the same coordinate tuple. -/
def collapsedB : List PairRow → Bool
  | [] => true
  | [_] => true
  | a :: b :: rs => (coords b != coords a) && collapsedB (b :: rs)

/-- The fragment-pair key of a row: `curr_pair = [pair[7], pair[8]]`
(pipeline.py line 387); the csv reader yields the two fragment ids as
strings and the aggregator compares them as strings. -/
def rowKey (r : PairRow) : String × String := (r.frag1, r.frag2)

/-- The loop state of `pairs2matrix` (pipeline.py lines 376-379):
`prev_pair`, `n_occ`, `n_nonzero`, `n_pairs`, the matrix entries written
so far, and the value of the loop variable `curr_pair` (`none` while it
is still unassigned, i.e. before the first iteration). -/
structure MatState where
  prev : String × String
  n_occ : Nat
  n_nonzero : Nat
  n_pairs : Nat
  entries : List ((String × String) × Nat)
  curr : Option (String × String)
deriving DecidableEq, Repr

/-- One iteration of the `for pair in pairs_reader` loop of
`pairs2matrix` (pipeline.py lines 385-398).  In GRAAL format
`write_mat_entry` ignores its arguments and writes the closure variables
`prev_pair` and `n_occ`, which at its in-loop call site hold the values
from before the reassignment; the guard `if n_occ > 0` comes from line
393. -/
def matStep (s : MatState) (r : PairRow) : MatState :=
  let c := rowKey r
  if s.prev = c then
    { s with n_occ := s.n_occ + 1, curr := some c }
  else
    { prev := c
      n_occ := 1
      n_nonzero := s.n_nonzero + 1
      n_pairs := s.n_pairs + s.n_occ
      entries := s.entries ++ (if 0 < s.n_occ then [(s.prev, s.n_occ)] else [])
      curr := some c }

/-- Initial loop state: `prev_pair = ["0", "0"]`, all counters 0,
`curr_pair` unassigned. -/
def matInit : MatState := ⟨("0", "0"), 0, 0, 0, [], none⟩

/-- Result of `pairs2matrix` in GRAAL format: the entry lines written
after the first line, the final `n_nonzero` and `n_pairs` counters, and
the first line of the matrix file after the header-patching step. -/
structure MatResult where
  entries : List ((String × String) × Nat)
  n_nonzero : Nat
  n_pairs : Nat
  headerLine : String
deriving DecidableEq, Repr

/-- The patched GRAAL header line.  `pairs2matrix` first writes
`"{n_frags}\t{n_frags}\t-"` (line 384) and afterwards patches it with
`header.replace("-", str(n_nonzero))` (line 408); the only `-` in the
line is the placeholder (the two other fields are decimal digits), so
the patched line is the two fragment counts followed by `n_nonzero`. -/
def graalHeader (n_frags n_nonzero : Nat) : String :=
  Nat.repr n_frags ++ "\t" ++ Nat.repr n_frags ++ "\t" ++ Nat.repr n_nonzero

/-- `pairs2matrix` in GRAAL format (pipeline.py lines 317-421), on the
data rows of the fragment-sorted pairs file.  After the loop the source
runs `write_mat_entry(curr_pair[0], curr_pair[1], n_occ)` (line 400)
unconditionally: with zero data rows the local `curr_pair` was never
assigned and Python raises UnboundLocalError, modelled as `.error`.
Otherwise the final entry is written from the closure variables
`prev_pair`/`n_occ` (in GRAAL format `write_mat_entry` ignores its
arguments; after the loop `prev_pair = curr_pair` in either branch),
and `n_nonzero += 1` and `n_pairs += 1` are executed (lines 401-402). -/
def pairs2matrix (n_frags : Nat) (rows : List PairRow) : Except String MatResult :=
  let s := rows.foldl matStep matInit
  match s.curr with
  | none => .error "UnboundLocalError: local variable curr_pair referenced before assignment"
  | some _ =>
    .ok { entries := s.entries ++ [(s.prev, s.n_occ)]
          n_nonzero := s.n_nonzero + 1
          n_pairs := s.n_pairs + 1
          headerLine := graalHeader n_frags (s.n_nonzero + 1) }

/-- Specification-side run-length encoding, accumulating the current
key `k` with running count `n`. -/
def rleAux (k : String × String) (n : Nat) : List (String × String) → List ((String × String) × Nat)
  | [] => [(k, n)]
  | k' :: ks => if k' = k then rleAux k (n + 1) ks else (k, n) :: rleAux k' 1 ks

/-- Specification-side run-length encoding of a key sequence: one
`(key, count)` entry per maximal run of equal consecutive keys, in
input order, with `count` the length of the run. -/
def rle : List (String × String) → List ((String × String) × Nat)
  | [] => []
  | k :: ks => rleAux k 1 ks

/-- Numeric value of a decimal field, as `sort -n` and the example's
fragment indices read it. -/
def strNatVal (s : String) : Nat :=
  s.data.foldl (fun n c => n * 10 + (c.toNat - '0'.toNat)) 0

/-- Strict numeric ascending order on fragment-pair keys: lexicographic
on the numeric values of (frag1, frag2). -/
def fragValLt (a b : String × String) : Prop :=
  strNatVal a.1 < strNatVal b.1 ∨
    (strNatVal a.1 = strNatVal b.1 ∧ strNatVal a.2 < strNatVal b.2)

instance : DecidableRel fragValLt := fun a b => by
  unfold fragValLt; infer_instance

/-- A key sequence is sorted ascending by (frag1, frag2) under numeric
comparison: each consecutive step is either the same key (same decimal
strings) or a numerically strictly larger key. -/
def keyLe (a b : String × String) : Prop := a = b ∨ fragValLt a b

instance : DecidableRel keyLe := fun a b => by
  unfold keyLe; infer_instance

/-- Decidable check that a key sequence is sorted ascending. -/
def sortedKeysB : List (String × String) → Bool
  | [] => true
  | [_] => true
  | a :: b :: ks => decide (keyLe a b) && sortedKeysB (b :: ks)

/-- Concrete row used by the duplicate-collapse example (the pair at one
line of the file, duplicated verbatim 30 extra times as in the repo's
test). -/
def dupRow : PairRow := ⟨"q1", "seq1", "100", "seq1", "200", "+", "-", "3", "4"⟩

/-- Coordinate-sorted example file in which `dupRow` appears once and is
then repeated 30 extra times. -/
def dupExample : PairsFile :=
  ⟨["## pairs format v1.0",
    "#columns: readID chr1 pos1 chr2 pos2 strand1 strand2 frag1 frag2"],
    ⟨"q0", "seq1", "10", "seq1", "20", "+", "+", "1", "2"⟩ ::
      dupRow :: List.replicate 30 dupRow ++
        [⟨"q2", "seq2", "30", "seq2", "40", "-", "-", "5", "6"⟩]⟩

/-- Already-collapsed example file: two rows with distinct coordinate
tuples. -/
def collapsedExample : PairsFile :=
  ⟨["## pairs format v1.0", "#sorted: chr1-pos1-chr2-pos2"],
    [⟨"q0", "seq1", "10", "seq1", "20", "+", "+", "1", "2"⟩,
      ⟨"q1", "seq1", "15", "seq2", "25", "+", "-", "2", "7"⟩]⟩

def exMatRows : List PairRow :=
  [⟨"a", "c1", "10", "c1", "20", "+", "-", "0", "1"⟩,
    ⟨"b", "c1", "11", "c1", "21", "+", "-", "0", "1"⟩,
    ⟨"c", "c1", "12", "c1", "22", "+", "-", "0", "1"⟩,
    ⟨"d", "c2", "30", "c2", "40", "-", "+", "2", "5"⟩]

/-
The mate-synchronization merge of `bam2pairs` (pipeline.py lines
115-232).  The two name-sorted BAM streams become lists consumed from
the front; `itertools.zip_longest` pulls one record from each stream per
outer iteration (yielding `none` once a stream is exhausted), and the
inner `while` loop (`resync` below) advances the lagging stream one
record at a time until the two read identifiers match or a stream runs
out.  The `exhausted` flags, the `n_reads` counters and the
`unmatched_reads` counter are threaded explicitly; `reads` additionally
instruments how many records were actually pulled from either stream.
-/

structure BamRecord where
  query_name : String
  reference_id : Int
  reference_name : String
  reference_start : Nat
  mapping_quality : Nat
  is_reverse : Bool
deriving DecidableEq, Repr

structure PairLine where
  readID : String
  chr1 : String
  pos1 : Nat
  chr2 : String
  pos2 : Nat
  strand1 : String
  strand2 : String
deriving DecidableEq, Repr

structure Stats where
  total : Nat
  mapped : Nat
  unmatched : Nat
  reads : Nat
deriving DecidableEq, Repr

structure SyncState where
  ex1 : Bool
  ex2 : Bool
  e1 : Option BamRecord
  e2 : Option BamRecord
  p1 : Bool
  p2 : Bool
  l1 : List BamRecord
  l2 : List BamRecord
  st : Stats
deriving DecidableEq, Repr

def b2n (b : Bool) : Nat := if b then 1 else 0

def nameLt (a b : String) : Prop := a.data < b.data

instance : DecidableRel nameLt := fun a b => by
  unfold nameLt; infer_instance

/-- The inner `while` resynchronization loop of `bam2pairs` (pipeline.py
lines 173-195), with current reads `e1`/`e2`, their quality-gate flags
`p1`/`p2`, the remaining streams `l1`/`l2` and the running counters.
The loop runs only while `sum(exhausted) == 0` and the two read names
differ, advancing the stream whose name sorts lexicographically smaller;
on `StopIteration` it sets the exhausted flag and clears the passed flag
(the re-checked loop condition then exits at once, so that arm is
returned directly).  A `none` current read always has its exhausted flag
already set by the caller, so the final catch-all arm matching the
short-circuited `sum(exhausted) == 0` test returns unchanged. -/
def resync (q : Nat) (ex1 ex2 : Bool) (e1 e2 : Option BamRecord) (p1 p2 : Bool)
    (l1 l2 : List BamRecord) (st : Stats) : SyncState :=
  match e1, e2 with
  | some a, some b =>
    if ex1 = true ∨ ex2 = true ∨ a.query_name = b.query_name then
      ⟨ex1, ex2, some a, some b, p1, p2, l1, l2, st⟩
    else if nameLt a.query_name b.query_name then
      match l1 with
      | r :: rs =>
        resync q ex1 ex2 (some r) (some b) (decide (q ≤ r.mapping_quality)) p2 rs l2
          ⟨st.total + 1, st.mapped + b2n (decide (q ≤ r.mapping_quality)),
            st.unmatched + 1, st.reads + 1⟩
      | [] =>
        ⟨true, ex2, some a, some b, false, p2, [], l2,
          ⟨st.total + 1, st.mapped, st.unmatched + 1, st.reads⟩⟩
    else
      match l2 with
      | r :: rs =>
        resync q ex1 ex2 (some a) (some r) p1 (decide (q ≤ r.mapping_quality)) l1 rs
          ⟨st.total + 1, st.mapped + b2n (decide (q ≤ r.mapping_quality)),
            st.unmatched + 1, st.reads + 1⟩
      | [] =>
        ⟨ex1, true, some a, some b, p1, false, l1, [],
          ⟨st.total + 1, st.mapped, st.unmatched + 1, st.reads⟩⟩
  | _, _ => ⟨ex1, ex2, e1, e2, p1, p2, l1, l2, st⟩
termination_by l1.length + l2.length

/-
Unfolding equations and bookkeeping bounds for `resync`; they precede
`mergeLoop` because its termination argument needs `syncOf_len_le`.
-/

theorem resync_exit (q : Nat) (ex1 ex2 : Bool) (a b : BamRecord) (p1 p2 : Bool)
    (l1 l2 : List BamRecord) (st : Stats)
    (h : ex1 = true ∨ ex2 = true ∨ a.query_name = b.query_name) :
    resync q ex1 ex2 (some a) (some b) p1 p2 l1 l2 st =
      ⟨ex1, ex2, some a, some b, p1, p2, l1, l2, st⟩ := by
  rw [resync.eq_def]
  simp [h]

theorem resync_advance1 (q : Nat) (ex1 ex2 : Bool) (a b : BamRecord) (p1 p2 : Bool)
    (r : BamRecord) (rs l2 : List BamRecord) (st : Stats)
    (h : ¬ (ex1 = true ∨ ex2 = true ∨ a.query_name = b.query_name))
    (hlt : nameLt a.query_name b.query_name) :
    resync q ex1 ex2 (some a) (some b) p1 p2 (r :: rs) l2 st =
      resync q ex1 ex2 (some r) (some b) (decide (q ≤ r.mapping_quality)) p2 rs l2
        ⟨st.total + 1, st.mapped + b2n (decide (q ≤ r.mapping_quality)),
          st.unmatched + 1, st.reads + 1⟩ := by
  rw [resync.eq_def]
  simp [h, hlt]

theorem resync_stop1 (q : Nat) (ex1 ex2 : Bool) (a b : BamRecord) (p1 p2 : Bool)
    (l2 : List BamRecord) (st : Stats)
    (h : ¬ (ex1 = true ∨ ex2 = true ∨ a.query_name = b.query_name))
    (hlt : nameLt a.query_name b.query_name) :
    resync q ex1 ex2 (some a) (some b) p1 p2 [] l2 st =
      ⟨true, ex2, some a, some b, false, p2, [], l2,
        ⟨st.total + 1, st.mapped, st.unmatched + 1, st.reads⟩⟩ := by
  rw [resync.eq_def]
  simp [h, hlt]

theorem resync_advance2 (q : Nat) (ex1 ex2 : Bool) (a b : BamRecord) (p1 p2 : Bool)
    (l1 : List BamRecord) (r : BamRecord) (rs : List BamRecord) (st : Stats)
    (h : ¬ (ex1 = true ∨ ex2 = true ∨ a.query_name = b.query_name))
    (hlt : ¬ nameLt a.query_name b.query_name) :
    resync q ex1 ex2 (some a) (some b) p1 p2 l1 (r :: rs) st =
      resync q ex1 ex2 (some a) (some r) p1 (decide (q ≤ r.mapping_quality)) l1 rs
        ⟨st.total + 1, st.mapped + b2n (decide (q ≤ r.mapping_quality)),
          st.unmatched + 1, st.reads + 1⟩ := by
  rw [resync.eq_def]
  simp [h, hlt]

theorem resync_stop2 (q : Nat) (ex1 ex2 : Bool) (a b : BamRecord) (p1 p2 : Bool)
    (l1 : List BamRecord) (st : Stats)
    (h : ¬ (ex1 = true ∨ ex2 = true ∨ a.query_name = b.query_name))
    (hlt : ¬ nameLt a.query_name b.query_name) :
    resync q ex1 ex2 (some a) (some b) p1 p2 l1 [] st =
      ⟨ex1, true, some a, some b, p1, false, l1, [],
        ⟨st.total + 1, st.mapped, st.unmatched + 1, st.reads⟩⟩ := by
  rw [resync.eq_def]
  simp [h, hlt]

theorem resync_no_pull (q : Nat) (ex1 ex2 : Bool) (e1 e2 : Option BamRecord) (p1 p2 : Bool)
    (l1 l2 : List BamRecord) (st : Stats)
    (h : e1 = none ∨ e2 = none) :
    resync q ex1 ex2 e1 e2 p1 p2 l1 l2 st = ⟨ex1, ex2, e1, e2, p1, p2, l1, l2, st⟩ := by
  rw [resync.eq_def]
  rcases h with h | h
  · subst h; cases e2 <;> rfl
  · subst h; cases e1 <;> rfl

theorem resync_conserve (q : Nat) (ex1 ex2 : Bool) (e1 e2 : Option BamRecord) (p1 p2 : Bool)
    (l1 l2 : List BamRecord) (st : Stats) :
    (resync q ex1 ex2 e1 e2 p1 p2 l1 l2 st).st.reads +
        (resync q ex1 ex2 e1 e2 p1 p2 l1 l2 st).l1.length +
        (resync q ex1 ex2 e1 e2 p1 p2 l1 l2 st).l2.length =
      st.reads + l1.length + l2.length := by
  induction e1, e2, p1, p2, l1, l2, st using resync.induct q ex1 ex2 with
  | case1 p1 p2 l1 l2 st a b h =>
    rw [resync_exit q ex1 ex2 a b p1 p2 l1 l2 st h]
  | case2 p1 p2 l2 st a b h hlt r rs ih =>
    rw [resync_advance1 q ex1 ex2 a b p1 p2 r rs l2 st h hlt]
    simp at ih ⊢
    omega
  | case3 p1 p2 l2 st a b h hlt =>
    rw [resync_stop1 q ex1 ex2 a b p1 p2 l2 st h hlt]
  | case4 p1 p2 l1 st a b h hlt r rs ih =>
    rw [resync_advance2 q ex1 ex2 a b p1 p2 l1 r rs st h hlt]
    simp at ih ⊢
    omega
  | case5 p1 p2 l1 st a b h hlt =>
    rw [resync_stop2 q ex1 ex2 a b p1 p2 l1 st h hlt]
  | case6 e1 e2 p1 p2 l1 l2 st hne =>
    have : e1 = none ∨ e2 = none := by
      cases e1 with
      | none => exact Or.inl rfl
      | some a => cases e2 with
        | none => exact Or.inr rfl
        | some b => exact absurd (hne a b rfl rfl) not_false
    rw [resync_no_pull q ex1 ex2 e1 e2 p1 p2 l1 l2 st this]

theorem resync_len_le (q : Nat) (ex1 ex2 : Bool) (e1 e2 : Option BamRecord) (p1 p2 : Bool)
    (l1 l2 : List BamRecord) (st : Stats) :
    (resync q ex1 ex2 e1 e2 p1 p2 l1 l2 st).l1.length +
        (resync q ex1 ex2 e1 e2 p1 p2 l1 l2 st).l2.length ≤ l1.length + l2.length := by
  induction e1, e2, p1, p2, l1, l2, st using resync.induct q ex1 ex2 with
  | case1 p1 p2 l1 l2 st a b h =>
    rw [resync_exit q ex1 ex2 a b p1 p2 l1 l2 st h]
  | case2 p1 p2 l2 st a b h hlt r rs ih =>
    rw [resync_advance1 q ex1 ex2 a b p1 p2 r rs l2 st h hlt]
    simp at ih ⊢
    omega
  | case3 p1 p2 l2 st a b h hlt =>
    rw [resync_stop1 q ex1 ex2 a b p1 p2 l2 st h hlt]
  | case4 p1 p2 l1 st a b h hlt r rs ih =>
    rw [resync_advance2 q ex1 ex2 a b p1 p2 l1 r rs st h hlt]
    simp at ih ⊢
    omega
  | case5 p1 p2 l1 st a b h hlt =>
    rw [resync_stop2 q ex1 ex2 a b p1 p2 l1 st h hlt]
  | case6 e1 e2 p1 p2 l1 l2 st hne =>
    have hn : e1 = none ∨ e2 = none := by
      cases e1 with
      | none => exact Or.inl rfl
      | some a => cases e2 with
        | none => exact Or.inr rfl
        | some b => exact absurd (hne a b rfl rfl) not_false
    rw [resync_no_pull q ex1 ex2 e1 e2 p1 p2 l1 l2 st hn]

def passOf (q : Nat) (e : Option BamRecord) : Bool :=
  match e with
  | some a => decide (q ≤ a.mapping_quality)
  | none => false

def exOf (ex : Bool) (e : Option BamRecord) : Bool :=
  match e with
  | some _ => ex
  | none => true

def flipPair (e1 e2 : BamRecord) : BamRecord × BamRecord :=
  if (e1.reference_id = e2.reference_id ∧ e2.reference_start < e1.reference_start)
      ∨ e2.reference_id < e1.reference_id then
    (e2, e1)
  else (e1, e2)

def mkPairLine (a b : BamRecord) : PairLine :=
  ⟨a.query_name, a.reference_name, a.reference_start + 1,
    b.reference_name, b.reference_start + 1,
    if a.is_reverse then "-" else "+",
    if b.is_reverse then "-" else "+"⟩

def emitOf (s : SyncState) : List PairLine :=
  match s.e1, s.e2 with
  | some a, some b =>
    if s.p1 && s.p2 then [mkPairLine (flipPair a b).1 (flipPair a b).2] else []
  | _, _ => []

def statsAfter (s : SyncState) : Stats :=
  { s.st with
    total := s.st.total + (2 - (b2n s.ex1 + b2n s.ex2)),
    mapped := s.st.mapped + b2n s.p1 + b2n s.p2 }

def readStats (st : Stats) (l1 l2 : List BamRecord) : Stats :=
  { st with reads := st.reads + (if l1 = [] then 0 else 1) + (if l2 = [] then 0 else 1) }

structure BamResult where
  pairs : List PairLine
  unmatched : Nat
  total : Nat
  mapped : Nat
  reads : Nat
deriving DecidableEq, Repr

def syncOf (q : Nat) (ex1 ex2 : Bool) (l1 l2 : List BamRecord) (st : Stats) : SyncState :=
  resync q (exOf ex1 l1.head?) (exOf ex2 l2.head?) l1.head? l2.head?
    (passOf q l1.head?) (passOf q l2.head?) l1.tail l2.tail (readStats st l1 l2)

theorem syncOf_conserve (q : Nat) (ex1 ex2 : Bool) (l1 l2 : List BamRecord) (st : Stats) :
    (syncOf q ex1 ex2 l1 l2 st).st.reads + (syncOf q ex1 ex2 l1 l2 st).l1.length +
        (syncOf q ex1 ex2 l1 l2 st).l2.length =
      (readStats st l1 l2).reads + l1.tail.length + l2.tail.length :=
  resync_conserve q (exOf ex1 l1.head?) (exOf ex2 l2.head?) l1.head? l2.head?
    (passOf q l1.head?) (passOf q l2.head?) l1.tail l2.tail (readStats st l1 l2)

theorem syncOf_len_le (q : Nat) (ex1 ex2 : Bool) (l1 l2 : List BamRecord) (st : Stats) :
    (syncOf q ex1 ex2 l1 l2 st).l1.length + (syncOf q ex1 ex2 l1 l2 st).l2.length ≤
      l1.tail.length + l2.tail.length :=
  resync_len_le q (exOf ex1 l1.head?) (exOf ex2 l2.head?) l1.head? l2.head?
    (passOf q l1.head?) (passOf q l2.head?) l1.tail l2.tail (readStats st l1 l2)

/-- The outer `for end1, end2 in itertools.zip_longest(forward, reverse)`
loop of `bam2pairs` (pipeline.py lines 156-219): pull one record from
each stream, evaluate the quality gate (an exhausted slot sets the
exhausted flag and fails the gate, mirroring the AttributeError
handler), resynchronize, update the counters (lines 197-199), and emit a
pair when both current reads passed (lines 201-219). -/
def mergeLoop (q : Nat) (ex1 ex2 : Bool) (l1 l2 : List BamRecord)
    (st : Stats) (out : List PairLine) : BamResult :=
  if l1 = [] ∧ l2 = [] then ⟨out, st.unmatched, st.total, st.mapped, st.reads⟩
  else
    mergeLoop q (syncOf q ex1 ex2 l1 l2 st).ex1 (syncOf q ex1 ex2 l1 l2 st).ex2
      (syncOf q ex1 ex2 l1 l2 st).l1 (syncOf q ex1 ex2 l1 l2 st).l2
      (statsAfter (syncOf q ex1 ex2 l1 l2 st))
      (out ++ emitOf (syncOf q ex1 ex2 l1 l2 st))
termination_by l1.length + l2.length
decreasing_by
  have hc := syncOf_len_le q ex1 ex2 l1 l2 st
  rcases l1 with _ | ⟨a, as⟩ <;> rcases l2 with _ | ⟨b, bs⟩ <;> simp_all <;> omega

def bam2pairs (l1 l2 : List BamRecord) (q : Nat) : BamResult :=
  mergeLoop q false false l1 l2 ⟨0, 0, 0, 0⟩ []

def r1f : BamRecord := ⟨"r1", 0, "chr1", 100, 40, false⟩
def r2f : BamRecord := ⟨"r2", 0, "chr1", 200, 10, false⟩
def r3f : BamRecord := ⟨"r3", 0, "chr1", 300, 40, false⟩
def r1r : BamRecord := ⟨"r1", 0, "chr1", 150, 40, true⟩
def r3r : BamRecord := ⟨"r3", 0, "chr1", 50, 40, true⟩

def nameSortedB : List BamRecord → Bool
  | [] => true
  | [_] => true
  | a :: b :: rs => !(decide (nameLt b.query_name a.query_name)) && nameSortedB (b :: rs)

def bf : BamRecord := ⟨"b", 0, "c1", 10, 40, false⟩
def af : BamRecord := ⟨"a", 0, "c1", 20, 40, false⟩
def br : BamRecord := ⟨"b", 0, "c1", 30, 40, true⟩
def ar : BamRecord := ⟨"a", 0, "c1", 40, 40, true⟩
def cf : BamRecord := ⟨"c", 0, "c1", 5, 40, false⟩
def cr : BamRecord := ⟨"c", 0, "c1", 50, 40, true⟩

/-- A pair line is sound for threshold `q` when it was produced from two
reads with equal identifiers that both met the quality gate, written
after the upper-triangle flip. -/
def goodPair (q : Nat) (p : PairLine) : Prop :=
  ∃ a b : BamRecord, a.query_name = b.query_name ∧ q ≤ a.mapping_quality ∧
    q ≤ b.mapping_quality ∧ p = mkPairLine (flipPair a b).1 (flipPair a b).2

/-- The canonical upper-triangle order on alignment records:
lexicographic on (reference id, position). -/
def refLe (x y : BamRecord) : Prop :=
  x.reference_id < y.reference_id ∨
    (x.reference_id = y.reference_id ∧ x.reference_start ≤ y.reference_start)

-- From here on: the verification proper.

theorem coordsMatch_none (r : PairRow) : coordsMatch none r = false := rfl

theorem coordsMatch_some (p r : PairRow) :
    coordsMatch (some p) r = (coords r == coords p) := rfl

theorem filterLoop_cons_dup (p r : PairRow) (rs : List PairRow) (h : coords r = coords p) :
    filterLoop (some p) (r :: rs) =
      ((filterLoop (some p) rs).1, (filterLoop (some p) rs).2.1 + 1,
        (filterLoop (some p) rs).2.2 + 1) := by
  simp [filterLoop, coordsMatch_some, h]

theorem filterLoop_cons_new (prev : Option PairRow) (r : PairRow) (rs : List PairRow)
    (h : coordsMatch prev r = false) :
    filterLoop prev (r :: rs) =
      (r :: (filterLoop (some r) rs).1, (filterLoop (some r) rs).2.1,
        (filterLoop (some r) rs).2.2 + 1) := by
  simp [filterLoop, h]

theorem keepFirstsGo_cons_dup (c : List String) (r : PairRow) (rs : List PairRow)
    (h : coords r = c) :
    keepFirstsGo c (r :: rs) = keepFirstsGo (coords r) rs := by
  simp [keepFirstsGo, h]

theorem keepFirstsGo_cons_new (c : List String) (r : PairRow) (rs : List PairRow)
    (h : ¬ coords r = c) :
    keepFirstsGo c (r :: rs) = r :: keepFirstsGo (coords r) rs := by
  simp [keepFirstsGo, h]

/-- The comparison against the previously *kept* row used by the source
agrees with the comparison against the immediately preceding *row* used
by the specification: within a run of equal coordinate tuples both
references carry the same tuple. -/
theorem filterLoop_eq_keepFirstsGo (rs : List PairRow) :
    ∀ (p : PairRow) (c : List String), coords p = c →
      (filterLoop (some p) rs).1 = keepFirstsGo c rs ∧
        (filterLoop (some p) rs).2.1 + (keepFirstsGo c rs).length = rs.length ∧
        (filterLoop (some p) rs).2.2 = rs.length := by
  induction rs with
  | nil => intro p c _; simp [filterLoop, keepFirstsGo]
  | cons r rs ih =>
    intro p c hc
    by_cases h : coords r = c
    · have hpr : coords r = coords p := by rw [h, hc]
      obtain ⟨h1, h2, h3⟩ := ih p (coords r) hpr.symm
      rw [filterLoop_cons_dup p r rs hpr, keepFirstsGo_cons_dup c r rs h]
      exact ⟨h1, by simp; omega, by simp [h3]⟩
    · have hb : coordsMatch (some p) r = false := by
        simp [coordsMatch_some, hc]; exact h
      obtain ⟨h1, h2, h3⟩ := ih r (coords r) rfl
      rw [filterLoop_cons_new (some p) r rs hb, keepFirstsGo_cons_new c r rs h]
      exact ⟨by simp [h1], by simp; omega, by simp [h3]⟩

/-- Claim C6: for every pairs input, `filter_pcr_dup` keeps exactly the
first record of each maximal run of consecutive rows with equal
coordinate tuples (`keepFirsts`), copies the header verbatim, discards
the other rows and reports their number (`filter_count` equals the
number of input rows minus the number of kept rows, `reads_count` the
number of input rows); in particular, on `dupExample` — where one record
occurs once and is then repeated 30 extra times — the output contains
exactly one copy of that record and the reported duplicate count is
30. -/
theorem filter_pcr_dup_keeps_first_of_each_run :
    (∀ f : PairsFile,
      (filter_pcr_dup f).1.rows = keepFirsts f.rows ∧
        (filter_pcr_dup f).1.header = f.header ∧
        (filter_pcr_dup f).2.1 + (keepFirsts f.rows).length = f.rows.length ∧
        (filter_pcr_dup f).2.2 = f.rows.length) ∧
    ((filter_pcr_dup dupExample).1.rows.count dupRow = 1 ∧
      (filter_pcr_dup dupExample).2.1 = 30) := by
  constructor
  · intro f
    match hrows : f.rows with
    | [] => simp [filter_pcr_dup, filterLoop, keepFirsts, hrows]
    | r :: rs =>
      obtain ⟨h1, h2, h3⟩ := filterLoop_eq_keepFirstsGo rs r (coords r) rfl
      rw [filter_pcr_dup, hrows]
      rw [filterLoop_cons_new none r rs (coordsMatch_none r)]
      simp only [hrows, keepFirsts]
      exact ⟨by simp [h1], by trivial, by simp; omega, by simp [h3]⟩
  · exact ⟨by decide, by decide⟩

/-- On rows with no two consecutive equal coordinate tuples, the filter
loop keeps everything and counts no duplicate. -/
theorem filterLoop_of_collapsed (rs : List PairRow) :
    ∀ p : PairRow, collapsedB (p :: rs) = true →
      filterLoop (some p) rs = (rs, 0, rs.length) := by
  induction rs with
  | nil => intro p _; simp [filterLoop]
  | cons r rs ih =>
    intro p hcol
    simp only [collapsedB, Bool.and_eq_true, bne_iff_ne, ne_eq] at hcol
    obtain ⟨hne, hrest⟩ := hcol
    have hb : coordsMatch (some p) r = false := by simp [coordsMatch_some, hne]
    rw [filterLoop_cons_new (some p) r rs hb, ih r hrest]
    simp

/-- Claim C7: the duplicate-collapse stage is idempotent — on an input
whose data rows are already collapsed (no two consecutive rows share the
same coordinate tuple) the output file equals the input file, header
included, and the reported duplicate count is 0. -/
theorem filter_pcr_dup_idempotent (f : PairsFile) (h : collapsedB f.rows = true) :
    (filter_pcr_dup f).1 = f ∧ (filter_pcr_dup f).2.1 = 0 := by
  obtain ⟨header, rows⟩ := f
  match rows with
  | [] => simp [filter_pcr_dup, filterLoop]
  | r :: rs =>
    have hcol : collapsedB (r :: rs) = true := h
    rw [filter_pcr_dup]
    simp only
    rw [filterLoop_cons_new none r rs (coordsMatch_none r),
      filterLoop_of_collapsed rs r hcol]
    simp

/-- Witness for C7 at a concrete already-collapsed file. -/
theorem filter_pcr_dup_idempotent_witness :
    (filter_pcr_dup collapsedExample).1 = collapsedExample ∧
      (filter_pcr_dup collapsedExample).2.1 = 0 :=
  filter_pcr_dup_idempotent collapsedExample (by decide)

theorem matStep_entries_final (rows : List PairRow) :
    ∀ (p : String × String) (n nz np : Nat) (E : List ((String × String) × Nat))
      (c : Option (String × String)), 0 < n →
      (rows.foldl matStep ⟨p, n, nz, np, E, c⟩).entries ++
          [((rows.foldl matStep ⟨p, n, nz, np, E, c⟩).prev,
            (rows.foldl matStep ⟨p, n, nz, np, E, c⟩).n_occ)] =
        E ++ rleAux p n (rows.map rowKey) := by
  induction rows with
  | nil => intro p n nz np E c _; simp [rleAux]
  | cons r rs ih =>
    intro p n nz np E c hn
    by_cases h : p = rowKey r
    · rw [List.foldl_cons]
      rw [show matStep ⟨p, n, nz, np, E, c⟩ r = ⟨p, n + 1, nz, np, E, some (rowKey r)⟩ from by
        simp [matStep, h]]
      rw [ih p (n + 1) nz np E (some (rowKey r)) (by omega)]
      rw [List.map_cons, rleAux]
      rw [if_pos h.symm]
    · rw [List.foldl_cons]
      rw [show matStep ⟨p, n, nz, np, E, c⟩ r =
          ⟨rowKey r, 1, nz + 1, np + n, E ++ [(p, n)], some (rowKey r)⟩ from by
        simp [matStep, h, hn]]
      rw [ih (rowKey r) 1 (nz + 1) (np + n) (E ++ [(p, n)]) (some (rowKey r)) (by omega)]
      rw [List.map_cons, rleAux]
      rw [if_neg (fun hh => h hh.symm)]
      simp

theorem matStep_curr_some (rows : List PairRow) :
    ∀ (s : MatState) (k : String × String), s.curr = some k →
      ∃ k2, (rows.foldl matStep s).curr = some k2 := by
  induction rows with
  | nil => intro s k hk; exact ⟨k, hk⟩
  | cons r rs ih =>
    intro s k _
    rw [List.foldl_cons]
    by_cases h : s.prev = rowKey r
    · exact ih _ (rowKey r) (by simp [matStep, h])
    · exact ih _ (rowKey r) (by simp [matStep, h])

theorem rleAux_sum (ks : List (String × String)) :
    ∀ (k : String × String) (n : Nat),
      ((rleAux k n ks).map Prod.snd).sum = n + ks.length := by
  induction ks with
  | nil => intro k n; simp [rleAux]
  | cons k2 ks ih =>
    intro k n
    rw [rleAux]
    by_cases h : k2 = k
    · rw [if_pos h, ih]
      simp
      omega
    · rw [if_neg h]
      simp [ih]
      omega

instance : IsTrans (String × String) fragValLt :=
  ⟨fun a b c hab hbc => by
    simp only [fragValLt] at *
    omega⟩

theorem fragValLt_irrefl (a : String × String) : ¬ fragValLt a a := by
  simp [fragValLt]

theorem rleAux_keys (ks : List (String × String)) :
    ∀ (k : String × String) (n : Nat), sortedKeysB (k :: ks) = true →
      List.Chain' fragValLt ((rleAux k n ks).map Prod.fst) ∧
        ((rleAux k n ks).map Prod.fst).head? = some k := by
  induction ks with
  | nil => intro k n _; simp [rleAux]
  | cons k2 ks ih =>
    intro k n hs
    rw [show sortedKeysB (k :: k2 :: ks) = (decide (keyLe k k2) && sortedKeysB (k2 :: ks)) from rfl,
      Bool.and_eq_true, decide_eq_true_eq] at hs
    obtain ⟨hle, hrest⟩ := hs
    rw [rleAux]
    by_cases h : k2 = k
    · rw [if_pos h]
      exact ih k (n + 1) (h ▸ hrest)
    · rw [if_neg h]
      obtain ⟨hchain, hhead⟩ := ih k2 1 hrest
      have hlt : fragValLt k k2 := by
        rcases hle with he | hlt
        · exact absurd he.symm h
        · exact hlt
      refine ⟨?_, by simp⟩
      rw [List.map_cons]
      rw [List.chain'_cons']
      exact ⟨fun y hy => by rw [hhead] at hy; simp at hy; rw [← hy]; exact hlt, hchain⟩

theorem rle_keys_nodup (ks : List (String × String)) (h : sortedKeysB ks = true) :
    ((rle ks).map Prod.fst).Nodup := by
  cases ks with
  | nil => simp [rle]
  | cons k ks =>
    rw [rle]
    obtain ⟨hchain, _⟩ := rleAux_keys ks k 1 h
    have hpw : ((rleAux k 1 ks).map Prod.fst).Pairwise fragValLt :=
      List.chain'_iff_pairwise.mp hchain
    exact hpw.imp (fun hlt heq => absurd (heq ▸ hlt) (fragValLt_irrefl _))

theorem pairs2matrix_aggregates (n_frags : Nat) (rows : List PairRow)
    (hne : rows ≠ []) (hsorted : sortedKeysB (rows.map rowKey) = true) :
    ∃ res, pairs2matrix n_frags rows = Except.ok res ∧
      res.entries = rle (rows.map rowKey) ∧
      (res.entries.map Prod.snd).sum = rows.length ∧
      (res.entries.map Prod.fst).Nodup := by
  match rows, hne with
  | r :: rs, _ =>
    have hfinal :
        (rs.foldl matStep (matStep matInit r)).entries ++
            [((rs.foldl matStep (matStep matInit r)).prev,
              (rs.foldl matStep (matStep matInit r)).n_occ)] =
          rle ((r :: rs).map rowKey) := by
      by_cases h : (("0", "0") : String × String) = rowKey r
      · rw [show matStep matInit r = ⟨("0", "0"), 1, 0, 0, [], some (rowKey r)⟩ from by
          simp [matStep, matInit, h]]
        rw [matStep_entries_final rs ("0", "0") 1 0 0 [] (some (rowKey r)) (by omega)]
        rw [List.map_cons]
        rw [show rle (rowKey r :: rs.map rowKey) = rleAux (rowKey r) 1 (rs.map rowKey) from rfl]
        rw [h]
        simp
      · rw [show matStep matInit r = ⟨rowKey r, 1, 1, 0, [], some (rowKey r)⟩ from by
          simp [matStep, matInit, h]]
        rw [matStep_entries_final rs (rowKey r) 1 1 0 [] (some (rowKey r)) (by omega)]
        rw [List.map_cons]
        rw [show rle (rowKey r :: rs.map rowKey) = rleAux (rowKey r) 1 (rs.map rowKey) from rfl]
        simp
    obtain ⟨k2, hk2⟩ := matStep_curr_some rs (matStep matInit r) (rowKey r) (by
      by_cases h : (("0", "0") : String × String) = rowKey r <;> simp [matStep, matInit, h])
    have hok : pairs2matrix n_frags (r :: rs) =
        Except.ok ⟨(rs.foldl matStep (matStep matInit r)).entries ++
            [((rs.foldl matStep (matStep matInit r)).prev,
              (rs.foldl matStep (matStep matInit r)).n_occ)],
          (rs.foldl matStep (matStep matInit r)).n_nonzero + 1,
          (rs.foldl matStep (matStep matInit r)).n_pairs + 1,
          graalHeader n_frags ((rs.foldl matStep (matStep matInit r)).n_nonzero + 1)⟩ := by
      simp only [pairs2matrix, List.foldl_cons]
      rw [hk2]
    refine ⟨_, hok, ?_, ?_, ?_⟩
    · exact hfinal
    · rw [hfinal]
      rw [List.map_cons]
      rw [show rle (rowKey r :: rs.map rowKey) = rleAux (rowKey r) 1 (rs.map rowKey) from rfl]
      rw [rleAux_sum]
      simp
      omega
    · rw [hfinal]
      exact rle_keys_nodup ((r :: rs).map rowKey) hsorted

theorem mergeLoop_nil (q : Nat) (ex1 ex2 : Bool) (st : Stats) (out : List PairLine) :
    mergeLoop q ex1 ex2 [] [] st out =
      ⟨out, st.unmatched, st.total, st.mapped, st.reads⟩ := by
  rw [mergeLoop.eq_def]
  simp

theorem mergeLoop_step (q : Nat) (ex1 ex2 : Bool) (l1 l2 : List BamRecord)
    (st : Stats) (out : List PairLine) (h : ¬ (l1 = [] ∧ l2 = [])) :
    mergeLoop q ex1 ex2 l1 l2 st out =
      mergeLoop q (syncOf q ex1 ex2 l1 l2 st).ex1 (syncOf q ex1 ex2 l1 l2 st).ex2
        (syncOf q ex1 ex2 l1 l2 st).l1 (syncOf q ex1 ex2 l1 l2 st).l2
        (statsAfter (syncOf q ex1 ex2 l1 l2 st))
        (out ++ emitOf (syncOf q ex1 ex2 l1 l2 st)) := by
  rw [mergeLoop.eq_def]
  simp [h]

theorem statsAfter_reads (s : SyncState) : (statsAfter s).reads = s.st.reads := rfl

theorem mergeLoop_reads (q : Nat) (ex1 ex2 : Bool) (l1 l2 : List BamRecord)
    (st : Stats) (out : List PairLine) :
    (mergeLoop q ex1 ex2 l1 l2 st out).reads = st.reads + l1.length + l2.length := by
  induction ex1, ex2, l1, l2, st, out using mergeLoop.induct q with
  | case1 ex1 ex2 l1 l2 st out h =>
    obtain ⟨h1, h2⟩ := h
    subst h1; subst h2
    rw [mergeLoop_nil]
    simp
  | case2 ex1 ex2 l1 l2 st out h ih =>
    rw [mergeLoop_step q ex1 ex2 l1 l2 st out h]
    have hc := syncOf_conserve q ex1 ex2 l1 l2 st
    rw [ih, statsAfter_reads]
    rcases l1 with _ | ⟨a, as⟩ <;> rcases l2 with _ | ⟨b, bs⟩ <;>
      simp_all [readStats] <;> omega

/-- Claim C9: for every pair of finite input streams — including ones
where no read identifier ever matches — the mate-synchronization merge
terminates (it is a total function of the two lists) and its total
number of record reads over both streams is exactly the number of input
records: every record is pulled from its stream exactly once, O(n)
overall. -/
theorem bam2pairs_single_pass (l1 l2 : List BamRecord) (q : Nat) :
    (bam2pairs l1 l2 q).reads = l1.length + l2.length := by
  rw [bam2pairs, mergeLoop_reads]
  simp

theorem resync_spec (q : Nat) (ex1 ex2 : Bool) (e1 e2 : Option BamRecord) (p1 p2 : Bool)
    (l1 l2 : List BamRecord) (st : Stats)
    (h1 : p1 = true → ∃ a, e1 = some a ∧ q ≤ a.mapping_quality)
    (h2 : p2 = true → ∃ b, e2 = some b ∧ q ≤ b.mapping_quality)
    (hx1 : ex1 = true → p1 = false)
    (hx2 : ex2 = true → p2 = false) :
    ((resync q ex1 ex2 e1 e2 p1 p2 l1 l2 st).p1 = true →
      ∃ a, (resync q ex1 ex2 e1 e2 p1 p2 l1 l2 st).e1 = some a ∧ q ≤ a.mapping_quality) ∧
    ((resync q ex1 ex2 e1 e2 p1 p2 l1 l2 st).p2 = true →
      ∃ b, (resync q ex1 ex2 e1 e2 p1 p2 l1 l2 st).e2 = some b ∧ q ≤ b.mapping_quality) ∧
    ((resync q ex1 ex2 e1 e2 p1 p2 l1 l2 st).p1 = true →
      (resync q ex1 ex2 e1 e2 p1 p2 l1 l2 st).p2 = true →
      ∀ a b, (resync q ex1 ex2 e1 e2 p1 p2 l1 l2 st).e1 = some a →
        (resync q ex1 ex2 e1 e2 p1 p2 l1 l2 st).e2 = some b →
        a.query_name = b.query_name) := by
  induction e1, e2, p1, p2, l1, l2, st using resync.induct q ex1 ex2 with
  | case1 p1 p2 l1 l2 st a b h =>
    rw [resync_exit q ex1 ex2 a b p1 p2 l1 l2 st h]
    refine ⟨h1, h2, ?_⟩
    intro hp1 hp2 a' b' ha hb
    have hp1' : p1 = true := hp1
    have hp2' : p2 = true := hp2
    simp only [Option.some.injEq] at ha hb
    subst ha; subst hb
    rcases h with h | h | h
    · exact absurd (hx1 h) (by simp [hp1'])
    · exact absurd (hx2 h) (by simp [hp2'])
    · exact h
  | case2 p1 p2 l2 st a b h hlt r rs ih =>
    rw [resync_advance1 q ex1 ex2 a b p1 p2 r rs l2 st h hlt]
    push_neg at h
    exact ih (fun hp => ⟨r, rfl, by simpa using hp⟩) h2
      (fun hex => absurd hex (by simp [h.1])) (fun hex => absurd hex (by simp [h.2.1]))
  | case3 p1 p2 l2 st a b h hlt =>
    rw [resync_stop1 q ex1 ex2 a b p1 p2 l2 st h hlt]
    refine ⟨by simp, h2, by simp⟩
  | case4 p1 p2 l1 st a b h hlt r rs ih =>
    rw [resync_advance2 q ex1 ex2 a b p1 p2 l1 r rs st h hlt]
    push_neg at h
    exact ih h1 (fun hp => ⟨r, rfl, by simpa using hp⟩)
      (fun hex => absurd hex (by simp [h.1])) (fun hex => absurd hex (by simp [h.2.1]))
  | case5 p1 p2 l1 st a b h hlt =>
    rw [resync_stop2 q ex1 ex2 a b p1 p2 l1 st h hlt]
    refine ⟨h1, by simp, by simp⟩
  | case6 e1 e2 p1 p2 l1 l2 st hne =>
    have hn : e1 = none ∨ e2 = none := by
      cases e1 with
      | none => exact Or.inl rfl
      | some a => cases e2 with
        | none => exact Or.inr rfl
        | some b => exact absurd (hne a b rfl rfl) not_false
    rw [resync_no_pull q ex1 ex2 e1 e2 p1 p2 l1 l2 st hn]
    refine ⟨h1, h2, ?_⟩
    intro hp1 hp2 a b ha hb
    obtain ⟨a', ha', _⟩ := h1 hp1
    obtain ⟨b', hb', _⟩ := h2 hp2
    rw [ha'] at ha
    rw [hb'] at hb
    simp only [Option.some.injEq] at ha hb
    subst ha; subst hb
    exact absurd (hne a' b' ha' hb') not_false

theorem resync_ex_inv (q : Nat) (ex1 ex2 : Bool) (e1 e2 : Option BamRecord) (p1 p2 : Bool)
    (l1 l2 : List BamRecord) (st : Stats)
    (hx1 : ex1 = true → l1 = [])
    (hx2 : ex2 = true → l2 = []) :
    ((resync q ex1 ex2 e1 e2 p1 p2 l1 l2 st).ex1 = true →
      (resync q ex1 ex2 e1 e2 p1 p2 l1 l2 st).l1 = []) ∧
    ((resync q ex1 ex2 e1 e2 p1 p2 l1 l2 st).ex2 = true →
      (resync q ex1 ex2 e1 e2 p1 p2 l1 l2 st).l2 = []) := by
  induction e1, e2, p1, p2, l1, l2, st using resync.induct q ex1 ex2 with
  | case1 p1 p2 l1 l2 st a b h =>
    rw [resync_exit q ex1 ex2 a b p1 p2 l1 l2 st h]
    exact ⟨hx1, hx2⟩
  | case2 p1 p2 l2 st a b h hlt r rs ih =>
    rw [resync_advance1 q ex1 ex2 a b p1 p2 r rs l2 st h hlt]
    push_neg at h
    exact ih (fun hex => absurd hex (by simp [h.1])) hx2
  | case3 p1 p2 l2 st a b h hlt =>
    rw [resync_stop1 q ex1 ex2 a b p1 p2 l2 st h hlt]
    exact ⟨fun _ => rfl, hx2⟩
  | case4 p1 p2 l1 st a b h hlt r rs ih =>
    rw [resync_advance2 q ex1 ex2 a b p1 p2 l1 r rs st h hlt]
    push_neg at h
    exact ih hx1 (fun hex => absurd hex (by simp [h.2.1]))
  | case5 p1 p2 l1 st a b h hlt =>
    rw [resync_stop2 q ex1 ex2 a b p1 p2 l1 st h hlt]
    exact ⟨hx1, fun _ => rfl⟩
  | case6 e1 e2 p1 p2 l1 l2 st hne =>
    have hn : e1 = none ∨ e2 = none := by
      cases e1 with
      | none => exact Or.inl rfl
      | some a => cases e2 with
        | none => exact Or.inr rfl
        | some b => exact absurd (hne a b rfl rfl) not_false
    rw [resync_no_pull q ex1 ex2 e1 e2 p1 p2 l1 l2 st hn]
    exact ⟨hx1, hx2⟩

theorem mergeLoop_sound (q : Nat) (ex1 ex2 : Bool) (l1 l2 : List BamRecord)
    (st : Stats) (out : List PairLine)
    (hx1 : ex1 = true → l1 = []) (hx2 : ex2 = true → l2 = [])
    (hout : ∀ p ∈ out, goodPair q p) :
    ∀ p ∈ (mergeLoop q ex1 ex2 l1 l2 st out).pairs, goodPair q p := by
  revert hx1 hx2 hout
  induction ex1, ex2, l1, l2, st, out using mergeLoop.induct q with
  | case1 ex1 ex2 l1 l2 st out h =>
    intro hx1 hx2 hout
    obtain ⟨h1, h2⟩ := h
    subst h1; subst h2
    rw [mergeLoop_nil]
    exact hout
  | case2 ex1 ex2 l1 l2 st out h ih =>
    intro hx1 hx2 hout
    rw [mergeLoop_step q ex1 ex2 l1 l2 st out h]
    -- entry conditions of the resynchronization call
    have hq1 : passOf q l1.head? = true → ∃ a, l1.head? = some a ∧ q ≤ a.mapping_quality := by
      cases l1 with
      | nil => intro hp; exact absurd hp (by simp [passOf])
      | cons a as => intro hp; exact ⟨a, rfl, by simpa [passOf] using hp⟩
    have hq2 : passOf q l2.head? = true → ∃ b, l2.head? = some b ∧ q ≤ b.mapping_quality := by
      cases l2 with
      | nil => intro hp; exact absurd hp (by simp [passOf])
      | cons b bs => intro hp; exact ⟨b, rfl, by simpa [passOf] using hp⟩
    have hpx1 : exOf ex1 l1.head? = true → passOf q l1.head? = false := by
      cases l1 with
      | nil => intro _; simp [passOf]
      | cons a as =>
        intro hex
        exact absurd (hx1 (by simpa [exOf] using hex)) (by simp)
    have hpx2 : exOf ex2 l2.head? = true → passOf q l2.head? = false := by
      cases l2 with
      | nil => intro _; simp [passOf]
      | cons b bs =>
        intro hex
        exact absurd (hx2 (by simpa [exOf] using hex)) (by simp)
    have hlx1 : exOf ex1 l1.head? = true → l1.tail = [] := by
      cases l1 with
      | nil => intro _; rfl
      | cons a as =>
        intro hex
        exact absurd (hx1 (by simpa [exOf] using hex)) (by simp)
    have hlx2 : exOf ex2 l2.head? = true → l2.tail = [] := by
      cases l2 with
      | nil => intro _; rfl
      | cons b bs =>
        intro hex
        exact absurd (hx2 (by simpa [exOf] using hex)) (by simp)
    have hspec :
        ((syncOf q ex1 ex2 l1 l2 st).p1 = true →
          ∃ a, (syncOf q ex1 ex2 l1 l2 st).e1 = some a ∧ q ≤ a.mapping_quality) ∧
        ((syncOf q ex1 ex2 l1 l2 st).p2 = true →
          ∃ b, (syncOf q ex1 ex2 l1 l2 st).e2 = some b ∧ q ≤ b.mapping_quality) ∧
        ((syncOf q ex1 ex2 l1 l2 st).p1 = true → (syncOf q ex1 ex2 l1 l2 st).p2 = true →
          ∀ a b, (syncOf q ex1 ex2 l1 l2 st).e1 = some a →
            (syncOf q ex1 ex2 l1 l2 st).e2 = some b → a.query_name = b.query_name) :=
      resync_spec q (exOf ex1 l1.head?) (exOf ex2 l2.head?)
        l1.head? l2.head? (passOf q l1.head?) (passOf q l2.head?) l1.tail l2.tail
        (readStats st l1 l2) hq1 hq2 hpx1 hpx2
    obtain ⟨hs1, hs2, hs3⟩ := hspec
    have hexinv :
        ((syncOf q ex1 ex2 l1 l2 st).ex1 = true → (syncOf q ex1 ex2 l1 l2 st).l1 = []) ∧
        ((syncOf q ex1 ex2 l1 l2 st).ex2 = true → (syncOf q ex1 ex2 l1 l2 st).l2 = []) :=
      resync_ex_inv q (exOf ex1 l1.head?) (exOf ex2 l2.head?)
        l1.head? l2.head? (passOf q l1.head?) (passOf q l2.head?) l1.tail l2.tail
        (readStats st l1 l2) hlx1 hlx2
    obtain ⟨he1, he2⟩ := hexinv
    refine ih he1 he2 ?_
    intro p hp
    rw [List.mem_append] at hp
    rcases hp with hp | hp
    · exact hout p hp
    · -- p was emitted by this iteration
      revert hp
      rw [emitOf]
      split
      · rename_i a b heq1 heq2
        split
        · rename_i hpass
          intro hp
          rw [List.mem_singleton] at hp
          subst hp
          rw [Bool.and_eq_true] at hpass
          obtain ⟨a', ha', hqa⟩ := hs1 hpass.1
          obtain ⟨b', hb', hqb⟩ := hs2 hpass.2
          rw [heq1] at ha'
          rw [heq2] at hb'
          simp only [Option.some.injEq] at ha' hb'
          subst ha'; subst hb'
          exact ⟨a, b, hs3 hpass.1 hpass.2 a b heq1 heq2, hqa, hqb, rfl⟩
        · intro hp; exact absurd hp (by simp)
      · intro hp; exact absurd hp (by simp)

theorem flipPair_upper_triangle (a b : BamRecord) :
    refLe (flipPair a b).1 (flipPair a b).2 := by
  rw [flipPair]
  split
  · rename_i h
    simp only [refLe]
    omega
  · rename_i h
    simp only [refLe]
    push_neg at h
    rcases lt_trichotomy a.reference_id b.reference_id with hc | hc | hc
    · exact Or.inl hc
    · exact Or.inr ⟨hc, by omega⟩
    · exact absurd hc (by omega)

theorem bam2pairs_pairs_good (l1 l2 : List BamRecord) (q : Nat) :
    ∀ p ∈ (bam2pairs l1 l2 q).pairs, goodPair q p := by
  rw [bam2pairs]
  exact mergeLoop_sound q false false l1 l2 ⟨0, 0, 0, 0⟩ [] (by simp) (by simp) (by simp)

theorem mergeLoop_matched_step (q : Nat) (a b : BamRecord) (l1 l2 : List BamRecord)
    (st : Stats) (out : List PairLine) (hname : a.query_name = b.query_name) :
    mergeLoop q false false (a :: l1) (b :: l2) st out =
      mergeLoop q false false l1 l2
        ⟨st.total + 2,
          st.mapped + b2n (decide (q ≤ a.mapping_quality)) + b2n (decide (q ≤ b.mapping_quality)),
          st.unmatched, st.reads + 2⟩
        (out ++ (if q ≤ a.mapping_quality ∧ q ≤ b.mapping_quality
          then [mkPairLine (flipPair a b).1 (flipPair a b).2] else [])) := by
  rw [mergeLoop_step q false false (a :: l1) (b :: l2) st out (by simp)]
  have hsync : syncOf q false false (a :: l1) (b :: l2) st =
      ⟨false, false, some a, some b, decide (q ≤ a.mapping_quality),
        decide (q ≤ b.mapping_quality), l1, l2, readStats st (a :: l1) (b :: l2)⟩ := by
    rw [syncOf]
    simp only [List.head?_cons, List.tail_cons, exOf, passOf]
    exact resync_exit q false false a b _ _ l1 l2 _ (Or.inr (Or.inr hname))
  rw [hsync]
  have hstats : statsAfter
      ⟨false, false, some a, some b, decide (q ≤ a.mapping_quality),
        decide (q ≤ b.mapping_quality), l1, l2, readStats st (a :: l1) (b :: l2)⟩ =
      ⟨st.total + 2,
        st.mapped + b2n (decide (q ≤ a.mapping_quality)) + b2n (decide (q ≤ b.mapping_quality)),
        st.unmatched, st.reads + 2⟩ := by
    simp only [statsAfter, readStats, b2n, Stats.mk.injEq]
    refine ⟨by simp, by trivial, by trivial, by simp⟩
  have hemit : emitOf
      ⟨false, false, some a, some b, decide (q ≤ a.mapping_quality),
        decide (q ≤ b.mapping_quality), l1, l2, readStats st (a :: l1) (b :: l2)⟩ =
      (if q ≤ a.mapping_quality ∧ q ≤ b.mapping_quality
        then [mkPairLine (flipPair a b).1 (flipPair a b).2] else []) := by
    rw [emitOf]
    by_cases hqa : q ≤ a.mapping_quality <;> by_cases hqb : q ≤ b.mapping_quality <;>
      simp [hqa, hqb]
  rw [hstats, hemit]

theorem bam2pairs_example_eval :
    bam2pairs [r1f, r2f, r3f] [r1r, r3r] 30 =
      ⟨[⟨"r1", "chr1", 101, "chr1", 151, "+", "-"⟩,
        ⟨"r3", "chr1", 51, "chr1", 301, "-", "+"⟩], 1, 5, 5, 5⟩ := by
  rw [bam2pairs,
    mergeLoop_matched_step 30 r1f r1r [r2f, r3f] [r3r] ⟨0, 0, 0, 0⟩ [] (by decide)]
  rw [show (⟨(0 : Nat) + 2,
      0 + b2n (decide (30 ≤ r1f.mapping_quality)) + b2n (decide (30 ≤ r1r.mapping_quality)),
      0, 0 + 2⟩ : Stats) = ⟨2, 2, 0, 2⟩ from by decide]
  rw [show ([] ++ (if (30 : Nat) ≤ r1f.mapping_quality ∧ (30 : Nat) ≤ r1r.mapping_quality
      then [mkPairLine (flipPair r1f r1r).1 (flipPair r1f r1r).2] else []) : List PairLine) =
      [⟨"r1", "chr1", 101, "chr1", 151, "+", "-"⟩] from by decide]
  rw [mergeLoop_step 30 false false [r2f, r3f] [r3r] ⟨2, 2, 0, 2⟩ _ (by simp)]
  have hsync2 : syncOf 30 false false [r2f, r3f] [r3r] ⟨2, 2, 0, 2⟩ =
      ⟨false, false, some r3f, some r3r, true, true, [], [], ⟨3, 3, 1, 5⟩⟩ := by
    rw [syncOf]
    simp only [List.head?_cons, List.tail_cons, exOf, passOf]
    rw [resync_advance1 30 false false r2f r3r _ _ r3f [] [] _ (by decide) (by decide)]
    rw [resync_exit 30 false false r3f r3r _ _ [] [] _ (by decide)]
    decide
  rw [hsync2]
  rw [show statsAfter ⟨false, false, some r3f, some r3r, true, true, [], [], ⟨3, 3, 1, 5⟩⟩ =
      ⟨5, 5, 1, 5⟩ from by decide]
  rw [show emitOf ⟨false, false, some r3f, some r3r, true, true, [], [], ⟨3, 3, 1, 5⟩⟩ =
      [⟨"r3", "chr1", 51, "chr1", 301, "-", "+"⟩] from by decide]
  rw [mergeLoop_nil]
  decide

theorem bam2pairs_unsorted_eval :
    bam2pairs [bf, af] [br, ar] 30 =
      ⟨[⟨"b", "c1", 11, "c1", 31, "+", "-"⟩,
        ⟨"a", "c1", 21, "c1", 41, "+", "-"⟩], 0, 4, 4, 4⟩ := by
  rw [bam2pairs,
    mergeLoop_matched_step 30 bf br [af] [ar] ⟨0, 0, 0, 0⟩ [] (by decide)]
  rw [show (⟨(0 : Nat) + 2,
      0 + b2n (decide (30 ≤ bf.mapping_quality)) + b2n (decide (30 ≤ br.mapping_quality)),
      0, 0 + 2⟩ : Stats) = ⟨2, 2, 0, 2⟩ from by decide]
  rw [show ([] ++ (if (30 : Nat) ≤ bf.mapping_quality ∧ (30 : Nat) ≤ br.mapping_quality
      then [mkPairLine (flipPair bf br).1 (flipPair bf br).2] else []) : List PairLine) =
      [⟨"b", "c1", 11, "c1", 31, "+", "-"⟩] from by decide]
  rw [mergeLoop_matched_step 30 af ar [] [] ⟨2, 2, 0, 2⟩ _ (by decide)]
  rw [show (⟨(2 : Nat) + 2,
      2 + b2n (decide (30 ≤ af.mapping_quality)) + b2n (decide (30 ≤ ar.mapping_quality)),
      0, 2 + 2⟩ : Stats) = ⟨4, 4, 0, 4⟩ from by decide]
  rw [mergeLoop_nil]
  simp only [List.append_assoc]
  decide

theorem bam2pairs_unsorted_mixed_eval :
    bam2pairs [cf, bf, af] [cr, ar] 30 =
      ⟨[⟨"c", "c1", 6, "c1", 51, "+", "-"⟩], 1, 5, 4, 5⟩ := by
  rw [bam2pairs,
    mergeLoop_matched_step 30 cf cr [bf, af] [ar] ⟨0, 0, 0, 0⟩ [] (by decide)]
  rw [show (⟨(0 : Nat) + 2,
      0 + b2n (decide (30 ≤ cf.mapping_quality)) + b2n (decide (30 ≤ cr.mapping_quality)),
      0, 0 + 2⟩ : Stats) = ⟨2, 2, 0, 2⟩ from by decide]
  rw [show ([] ++ (if (30 : Nat) ≤ cf.mapping_quality ∧ (30 : Nat) ≤ cr.mapping_quality
      then [mkPairLine (flipPair cf cr).1 (flipPair cf cr).2] else []) : List PairLine) =
      [⟨"c", "c1", 6, "c1", 51, "+", "-"⟩] from by decide]
  rw [mergeLoop_step 30 false false [bf, af] [ar] ⟨2, 2, 0, 2⟩ _ (by simp)]
  have hsync2 : syncOf 30 false false [bf, af] [ar] ⟨2, 2, 0, 2⟩ =
      ⟨false, true, some bf, some ar, true, false, [af], [], ⟨3, 2, 1, 4⟩⟩ := by
    rw [syncOf]
    simp only [List.head?_cons, List.tail_cons, exOf, passOf]
    rw [resync_stop2 30 false false bf ar _ _ [af] _ (by decide) (by decide)]
    decide
  rw [hsync2]
  rw [show statsAfter ⟨false, true, some bf, some ar, true, false, [af], [], ⟨3, 2, 1, 4⟩⟩ =
      ⟨4, 3, 1, 4⟩ from by decide]
  rw [show emitOf ⟨false, true, some bf, some ar, true, false, [af], [], ⟨3, 2, 1, 4⟩⟩ =
      ([] : List PairLine) from by decide]
  rw [mergeLoop_step 30 false true [af] [] ⟨4, 3, 1, 4⟩ _ (by simp)]
  have hsync3 : syncOf 30 false true [af] [] ⟨4, 3, 1, 4⟩ =
      ⟨false, true, some af, none, true, false, [], [], ⟨4, 3, 1, 5⟩⟩ := by
    rw [syncOf]
    simp only [List.head?_cons, List.tail_cons, List.head?_nil, List.tail_nil, exOf, passOf]
    rw [resync_no_pull 30 false true (some af) none _ _ [] [] _ (Or.inr rfl)]
    decide
  rw [hsync3]
  rw [show statsAfter ⟨false, true, some af, none, true, false, [], [], ⟨4, 3, 1, 5⟩⟩ =
      ⟨5, 4, 1, 5⟩ from by decide]
  rw [show emitOf ⟨false, true, some af, none, true, false, [], [], ⟨4, 3, 1, 5⟩⟩ =
      ([] : List PairLine) from by decide]
  rw [mergeLoop_nil]
  decide


/-- Claim C1: for every nonempty pairs input sorted ascending by
(frag1, frag2) under numeric comparison, `pairs2matrix` emits exactly
one matrix entry per maximal run of equal consecutive fragment-pair keys
— which, by sortedness, is one entry per distinct key (`Nodup`) — whose
count is the length of the run (`rle`), and the sum of the emitted entry
counts equals the number of input data rows; in particular the keys
(0,1),(0,1),(0,1),(2,5) produce exactly the entries (0,1,3) then (2,5,1)
with counts summing to 4. -/
theorem pairs2matrix_one_entry_per_run :
    (∀ (n_frags : Nat) (rows : List PairRow), rows ≠ [] →
      sortedKeysB (rows.map rowKey) = true →
      ∃ res, pairs2matrix n_frags rows = Except.ok res ∧
        res.entries = rle (rows.map rowKey) ∧
        (res.entries.map Prod.snd).sum = rows.length ∧
        (res.entries.map Prod.fst).Nodup) ∧
    (∃ res, pairs2matrix 6 exMatRows = Except.ok res ∧
      res.entries = [(("0", "1"), 3), (("2", "5"), 1)] ∧
      (res.entries.map Prod.snd).sum = 4) :=
  ⟨pairs2matrix_aggregates,
    ⟨⟨[(("0", "1"), 3), (("2", "5"), 1)], 3, 4, "6\t6\t3"⟩, rfl, rfl, rfl⟩⟩

/-- Witness for C1: the general statement applied to the example input
(4 rows with fragment keys (0,1),(0,1),(0,1),(2,5), n_frags = 6). -/
theorem pairs2matrix_one_entry_per_run_witness :
    ∃ res, pairs2matrix 6 exMatRows = Except.ok res ∧
      res.entries = rle (exMatRows.map rowKey) ∧
      (res.entries.map Prod.snd).sum = exMatRows.length ∧
      (res.entries.map Prod.fst).Nodup :=
  pairs2matrix_one_entry_per_run.1 6 exMatRows (by decide) (by decide)

/-- Claim C2 (code bug): on the example input the GRAAL run writes 2
entry lines but reports `n_nonzero = 3` in the patched first line (and
in the log): the final run is counted once when it starts (line 398) and
again after the loop (line 401), so the header's nonzero field is the
number of entry lines plus one, contradicting the code's own comments
("Total number of nonzero matrix entries", "First line contains nrows,
ncols and number of nonzero entries") and the sparse-matrix format. -/
theorem pairs2matrix_nonzero_overcount :
    ∃ res, pairs2matrix 6 exMatRows = Except.ok res ∧
      res.entries.length = 2 ∧ res.n_pairs = 4 ∧
      res.n_nonzero = 3 ∧ res.headerLine = "6\t6\t3" ∧
      res.n_nonzero ≠ res.entries.length :=
  ⟨⟨[(("0", "1"), 3), (("2", "5"), 1)], 3, 4, "6\t6\t3"⟩,
    rfl, rfl, rfl, rfl, rfl, by decide⟩

/-- Claim C10: on a pairs file whose data section is empty the final
flush after the read loop references the loop variable `curr_pair` that
was never assigned, so `pairs2matrix` fails with an UnboundLocalError
instead of completing with a zero-entry matrix. -/
theorem pairs2matrix_empty_input_error (n_frags : Nat) :
    pairs2matrix n_frags [] =
      Except.error "UnboundLocalError: local variable curr_pair referenced before assignment" :=
  rfl

/-- Claim C3: the two ends of every pair record written by `bam2pairs`
are in canonical upper-triangle order: the flip of lines 204-208 always
yields ends with (reference id, position) lexicographically
nondecreasing, and every emitted pair line is the serialization of such
a flipped pair of records — for all input streams, whatever order the
two ends arrived in. -/
theorem bam2pairs_upper_triangle :
    (∀ a b : BamRecord, refLe (flipPair a b).1 (flipPair a b).2) ∧
    (∀ (l1 l2 : List BamRecord) (q : Nat) (p : PairLine),
      p ∈ (bam2pairs l1 l2 q).pairs →
      ∃ a b : BamRecord, p = mkPairLine a b ∧ refLe a b) :=
  ⟨flipPair_upper_triangle,
    fun l1 l2 q p hp => by
      obtain ⟨a, b, _, _, _, hpeq⟩ := bam2pairs_pairs_good l1 l2 q p hp
      exact ⟨(flipPair a b).1, (flipPair a b).2, hpeq, flipPair_upper_triangle a b⟩⟩

/-- Witness for C3: the first pair emitted on the example streams is the
serialization of an ordered pair of records. -/
theorem bam2pairs_upper_triangle_witness :
    ∃ a b : BamRecord,
      (⟨"r1", "chr1", 101, "chr1", 151, "+", "-"⟩ : PairLine) = mkPairLine a b ∧ refLe a b :=
  bam2pairs_upper_triangle.2 [r1f, r2f, r3f] [r1r, r3r] 30
    ⟨"r1", "chr1", 101, "chr1", 151, "+", "-"⟩
    (by rw [bam2pairs_example_eval]; simp)

/-- Claim C4: a pair is emitted exactly when the two current records
have equal read identifiers and both mapping qualities are ≥ min_qual
(the comparison is ≥).  First conjunct: with matching identifiers the
iteration emits the flipped pair precisely when both qualities pass, and
in either case both streams advance past the two current records (their
lookahead slots are consumed, the read and total counters advance by 2).
Second conjunct: every pair ever emitted comes from two records with
equal identifiers that both met the ≥ gate. -/
theorem bam2pairs_quality_gate :
    (∀ (q : Nat) (a b : BamRecord) (l1 l2 : List BamRecord) (st : Stats)
      (out : List PairLine), a.query_name = b.query_name →
      mergeLoop q false false (a :: l1) (b :: l2) st out =
        mergeLoop q false false l1 l2
          ⟨st.total + 2,
            st.mapped + b2n (decide (q ≤ a.mapping_quality)) +
              b2n (decide (q ≤ b.mapping_quality)),
            st.unmatched, st.reads + 2⟩
          (out ++ (if q ≤ a.mapping_quality ∧ q ≤ b.mapping_quality
            then [mkPairLine (flipPair a b).1 (flipPair a b).2] else []))) ∧
    (∀ (l1 l2 : List BamRecord) (q : Nat) (p : PairLine),
      p ∈ (bam2pairs l1 l2 q).pairs →
      ∃ a b : BamRecord, a.query_name = b.query_name ∧
        q ≤ a.mapping_quality ∧ q ≤ b.mapping_quality ∧
        p = mkPairLine (flipPair a b).1 (flipPair a b).2) :=
  ⟨mergeLoop_matched_step, fun l1 l2 q p hp => bam2pairs_pairs_good l1 l2 q p hp⟩

/-- Witness for C4: one matched iteration on concrete records with
passing qualities. -/
theorem bam2pairs_quality_gate_witness :
    mergeLoop 30 false false [r1f] [r1r] ⟨0, 0, 0, 0⟩ [] =
      mergeLoop 30 false false [] []
        ⟨0 + 2,
          0 + b2n (decide (30 ≤ r1f.mapping_quality)) +
            b2n (decide (30 ≤ r1r.mapping_quality)),
          0, 0 + 2⟩
        ([] ++ (if 30 ≤ r1f.mapping_quality ∧ 30 ≤ r1r.mapping_quality
          then [mkPairLine (flipPair r1f r1r).1 (flipPair r1f r1r).2] else [])) :=
  bam2pairs_quality_gate.1 30 r1f r1r [] [] ⟨0, 0, 0, 0⟩ [] rfl

/-- Claim C5: on the name-sorted streams [(r1,q40),(r2,q10),(r3,q40)]
and [(r1,q40),(r3,q40)] with threshold 30, `bam2pairs` emits exactly two
pairs, for identifiers r1 and r3, and reports exactly one unmatched read
(r2, present in only one stream). -/
theorem bam2pairs_sync_example :
    (bam2pairs [r1f, r2f, r3f] [r1r, r3r] 30).pairs.map PairLine.readID = ["r1", "r3"] ∧
      (bam2pairs [r1f, r2f, r3f] [r1r, r3r] 30).pairs.length = 2 ∧
      (bam2pairs [r1f, r2f, r3f] [r1r, r3r] 30).unmatched = 1 := by
  rw [bam2pairs_example_eval]
  decide

/-- Counterexample to C8: two streams whose identifiers decrease (b then
a — not name-sorted) are processed to completion by `bam2pairs`, which
emits two pairs and returns normally; no ordering-violation error exists
in the code and the pass is not aborted. -/
theorem bam2pairs_unsorted_completes :
    nameSortedB [bf, af] = false ∧
      (bam2pairs [bf, af] [br, ar] 30).pairs.length = 2 := by
  refine ⟨by decide, ?_⟩
  rw [bam2pairs_unsorted_eval]
  decide

/-- Claim C8 as amended: `bam2pairs` performs no ordering check — on
input streams that violate the name-sorted precondition it continues the
two-pointer pass to completion and produces output; records skipped
while resynchronizing are only counted in `unmatched_reads` (reported
after the pass as a warning log, not an error). -/
theorem bam2pairs_unsorted_warns_only :
    nameSortedB [cf, bf, af] = false ∧
      bam2pairs [cf, bf, af] [cr, ar] 30 =
        ⟨[⟨"c", "c1", 6, "c1", 51, "+", "-"⟩], 1, 5, 4, 5⟩ :=
  ⟨by decide, bam2pairs_unsorted_mixed_eval⟩
